import Mathlib

/-!
Verification of the WebSocket probing shell (`ws_probing_shell.py`).

The Python source is shallowly embedded: each method relevant to the
verified properties is translated to an executable Lean function.
Transport behaviour (socket creation, send/receive, close) is abstracted
as explicit outcome oracles passed to the embedded functions, exactly at
the points where the Python code performs I/O.  Python `dict`s keyed by
dense integer indices are modelled as positional lists; Python `dict`s
used as ordered string-keyed records are modelled as association lists
in insertion order (CPython preserves insertion order).
-/

namespace WSProbing

/-! ## Payload combinator (`WSProbingShell.__build_fuzzing_dicts`)

A payload file is modelled by its list of lines (each already stripped of
its trailing newline, as done by `payload.rstrip('\n')`).  A Python dict
binding placeholder keys to payloads is modelled as an association list in
insertion order: `new_dict = {key: payload}` followed by
`new_dict.update(payload_combination)` puts the new key first. -/

/-- The placeholder key `"payload_%s" % current_position`. -/
def payloadKey (pos : Nat) : String := "payload_" ++ toString pos

/-- Direct translation of `__build_fuzzing_dicts(payload_files_list,
payload_combinations, current_position)`.  The first argument is the list
of (already read) payload files, each a list of stripped lines. -/
def buildFuzzingDicts : List (List String) → List (List (String × String)) → Nat →
    List (List (String × String))
  | [], combs, _ => combs
  | payloads :: rest, combs, pos =>
    if combs.isEmpty then
      buildFuzzingDicts rest (payloads.map (fun p => [(payloadKey pos, p)])) (pos + 1)
    else
      buildFuzzingDicts rest
        (combs.flatMap (fun comb => payloads.map (fun p => (payloadKey pos, p) :: comb)))
        (pos + 1)

/-- The ordered Cartesian product of the files' line lists, written from the
spec's enumeration rule: files are processed left to right and each file
multiplies the current tuple list, iterating the new file's lines fastest. -/
def specTuples : List (List String) → List (List String)
  | [] => [[]]
  | f :: rest => f.flatMap (fun x => (specTuples rest).map (fun t => x :: t))

/-- The binding the spec associates with one tuple of the product: key
`payload_i` (1-based by file order) mapped to the tuple's i-th line. -/
def bindingOf (pos : Nat) : List String → List (String × String)
  | [] => []
  | x :: rest => (payloadKey pos, x) :: bindingOf (pos + 1) rest

/-! ## Exchange recorder and bulk send driver (`WSProbingShell.__send_messages`)

One recorded exchange (`self.__exchanges[idx]`).  The store keyed by the
dense indices `0..N-1` is modelled positionally as a `List Exchange`.
`RESPONSE_TIME` (`round(time.clock() - start, 2)`) is environment data and
is modelled as a rational supplied by a per-index oracle. -/

structure Exchange where
  request : String
  response : String
  isError : Bool
  responseTime : ℚ
  requestLength : Nat
  responseLength : Nat
deriving DecidableEq, Repr

/-- Enumerate a list with indices starting at `i` (loop counter `idx`). -/
def withIndexFrom {α : Type} (i : Nat) : List α → List (Nat × α)
  | [] => []
  | x :: xs => (i, x) :: withIndexFrom (i + 1) xs

/-- Whether one send/receive attempt raised.  The attempt for message `idx`
is abstracted as `Except String String`: `.ok response` when
`__check_connection_availability`, `send` and `recv` all succeed, and
`.error text` with the textual description `str(err)` when any of them
raises. -/
def isErrorOutcome : Except String String → Bool
  | .ok _ => false
  | .error _ => true

/-- The exchange entry the loop body of `__send_messages` records for one
message: on success `IS_ERROR=False` and the response text, on failure
`IS_ERROR=True` and the error description as the response; both branches
then fill `RESPONSE_TIME`, `REQUEST_LENGTH` and `RESPONSE_LENGTH`. -/
def recordedExchange (oracle : Nat → Except String String) (times : Nat → ℚ)
    (idx : Nat) (msg : String) : Exchange :=
  match oracle idx with
  | .ok resp => ⟨msg, resp, false, times idx, msg.length, resp.length⟩
  | .error err => ⟨msg, err, true, times idx, msg.length, err.length⟩

/-- The loop of `__send_messages`, translated with the running index and
the accumulated `error_count`; returns the recorded exchanges (in index
order) and the final error count. -/
def sendMessagesAux (oracle : Nat → Except String String) (times : Nat → ℚ) :
    Nat → List String → List Exchange × Nat
  | _, [] => ([], 0)
  | idx, msg :: rest =>
    let ex : Exchange :=
      match oracle idx with
      | .ok resp => ⟨msg, resp, false, times idx, msg.length, resp.length⟩
      | .error err => ⟨msg, err, true, times idx, msg.length, err.length⟩
    let r := sendMessagesAux oracle times (idx + 1) rest
    (ex :: r.1, (if isErrorOutcome (oracle idx) then 1 else 0) + r.2)

/-- `__send_messages(messages_list)`: the store starts cleared and `idx`
starts at 0. -/
def sendMessages (oracle : Nat → Except String String) (times : Nat → ℚ)
    (messages : List String) : List Exchange × Nat :=
  sendMessagesAux oracle times 0 messages

/-! ## Timing aggregation (`WSProbingShell.do_analyze`, first analysis) -/

/-- Python `int()` applied to a (rational-valued) response time: truncation
toward zero. -/
def pyInt (q : ℚ) : Int := Int.tdiv q.num (q.den : Int)

/-- One step of building `exchanges_gathered`: a missing key is inserted at
the end (dict insertion order), an existing key gets the index appended. -/
def addGathered (acc : List (Int × List Nat)) (k : Int) (i : Nat) : List (Int × List Nat) :=
  if acc.any (fun p => decide (p.1 = k)) then
    acc.map (fun p => if p.1 = k then (p.1, p.2 ++ [i]) else p)
  else acc ++ [(k, [i])]

/-- The first analysis of `do_analyze`: group exchange indices by
`int(response_time)`.  The emitted rows iterate `OrderedDict(gathered)`,
i.e. the dict in insertion (first-seen-key) order, which this association
list models directly; the space-joined index string is modelled as the
index list. -/
def analyzeTimingGroups (exchanges : List Exchange) : List (Int × List Nat) :=
  (withIndexFrom 0 exchanges).foldl
    (fun acc p => addGathered acc (pyInt p.2.responseTime) p.1) []

/-! ## Limit probes (`do_probe_request_length_limit`,
`do_probe_request_connection_limit`)

Transport behaviour is abstracted by Boolean oracles: `sendOk n` tells
whether sending the `n`-character filler message succeeds (failure stands
for the caught `(WebSocketException, IOError)`), `openOk i` whether the
`i`-th `create_connection` call succeeds, `closeOk c` whether `close()` on
held connection `c` succeeds (failure stands for the caught `IOError`). -/

/-- What a probe reports: the identified maximum, or the
"NOT identified BUT is superior to the ceiling" message. -/
inductive ProbeOutcome where
  | identified (n : Nat)
  | undetermined
deriving DecidableEq, Repr

/-- The probed message sizes, Python `range(10, 1000000000, 10)`. -/
def lengthProbeSizes : List Nat := List.range' 10 99999999 10

/-- The probing loop: walk the sizes in order; on the first failing send
set `max_length = idx - 10` and break; falling off the loop leaves
`max_length = 0`. -/
def lengthProbeLoop (sendOk : Nat → Bool) : List Nat → Nat
  | [] => 0
  | idx :: rest => if sendOk idx then lengthProbeLoop sendOk rest else idx - 10

/-- `do_probe_request_length_limit`: report the identified maximum when
`max_length > 0`, else the not-identified sentinel. -/
def probeRequestLengthLimit (sendOk : Nat → Bool) : ProbeOutcome :=
  if 0 < lengthProbeLoop sendOk lengthProbeSizes then
    ProbeOutcome.identified (lengthProbeLoop sendOk lengthProbeSizes)
  else ProbeOutcome.undetermined

/-- The attempted connection numbers, Python `range(1, 1000000000)`. -/
def connProbeIndices : List Nat := List.range' 1 999999999 1

/-- The growth loop of the connection probe: each successful open is held
in `connections_references_list`; the first failing open sets
`max_connection = idx - 1` and breaks; falling off the loop leaves
`max_connection = 0`.  Returns `(max_connection, held connections)`. -/
def connProbeGrow (openOk : Nat → Bool) : List Nat → List Nat → Nat × List Nat
  | held, [] => (0, held)
  | held, idx :: rest =>
    if openOk idx then connProbeGrow openOk (held ++ [idx]) rest else (idx - 1, held)

/-- The release loop: `close()` is attempted on every held connection in
order, counting the failures (`except IOError`).  Returns the list of
connections a close was attempted on and `connection_not_released_count`. -/
def connReleaseLoop (closeOk : Nat → Bool) : List Nat → List Nat × Nat
  | [] => ([], 0)
  | c :: rest =>
    ((c :: (connReleaseLoop closeOk rest).1),
     (if closeOk c then 0 else 1) + (connReleaseLoop closeOk rest).2)

/-- Everything `do_probe_request_connection_limit` reports: the outcome,
which held connections a close was attempted on, and the released /
not-released counts of the final message. -/
structure ConnProbeReport where
  outcome : ProbeOutcome
  closeAttempts : List Nat
  released : Nat
  notReleased : Nat
deriving DecidableEq, Repr

/-- `do_probe_request_connection_limit`: grow, report the outcome, then
release every held connection and report
`(len(list) - not_released, not_released)`. -/
def probeRequestConnectionLimit (openOk closeOk : Nat → Bool) : ConnProbeReport :=
  ⟨if 0 < (connProbeGrow openOk [] connProbeIndices).1 then
      ProbeOutcome.identified (connProbeGrow openOk [] connProbeIndices).1
    else ProbeOutcome.undetermined,
   (connReleaseLoop closeOk (connProbeGrow openOk [] connProbeIndices).2).1,
   (connProbeGrow openOk [] connProbeIndices).2.length -
     (connReleaseLoop closeOk (connProbeGrow openOk [] connProbeIndices).2).2,
   (connReleaseLoop closeOk (connProbeGrow openOk [] connProbeIndices).2).2⟩

/-! ## Character-level string utilities

Python `str` values are modelled as `List Char` where the claims hinge on
character-level operations (`lower`, `replace`, `in`, `startswith`). -/

/-- Python `s.lower()` (ASCII case folding, which covers URI schemes). -/
def pyLower (s : List Char) : List Char := s.map Char.toLower

/-- Python substring containment, `pat in s`. -/
def containsSub (pat : List Char) : List Char → Bool
  | [] => pat.isEmpty
  | c :: rest => pat.isPrefixOf (c :: rest) || containsSub pat rest

/-- Python `s.replace(pat, repl)`: replace all non-overlapping occurrences
left to right.  Written with fuel to keep the recursion structural; fuel
`s.length` suffices whenever `pat` is non-empty. -/
def replaceAllFuel (pat repl : List Char) : Nat → List Char → List Char
  | 0, s => s
  | _ + 1, [] => []
  | fuel + 1, c :: rest =>
    if pat.isPrefixOf (c :: rest) then
      repl ++ replaceAllFuel pat repl fuel ((c :: rest).drop pat.length)
    else c :: replaceAllFuel pat repl fuel rest

/-- Python `s.replace(pat, repl)`. -/
def replaceAll (pat repl s : List Char) : List Char := replaceAllFuel pat repl s.length s

/-! ## Channel capability probe (`do_probe_connection_channels_supported`) -/

/-- The insecure scheme token `ws://` as characters. -/
def wsToken : List Char := ['w', 's', ':', '/', '/']

/-- The secure scheme token `wss://` as characters. -/
def wssToken : List Char := ['w', 's', 's', ':', '/', '/']

/-- The endpoint derivation of `do_probe_connection_channels_supported`:
the saved endpoint is lowercased whole; the scheme to test is `ws://`
when the lowercased endpoint starts with `wss://`, else `wss://`; the
tested endpoint is that scheme prepended to the lowercased endpoint with
every `wss://` and then every `ws://` occurrence removed. -/
def deriveComplementaryEndpoint (endpoint : List Char) : List Char :=
  (if wssToken.isPrefixOf (pyLower endpoint) then wsToken else wssToken) ++
    replaceAll wsToken [] (replaceAll wssToken [] (pyLower endpoint))

/-! ## Connection state (`do_connect`, `do_disconnect`,
`__check_connection_availability`)

Live connection handles are abstracted as numbers.  The combined
behaviour of `create_connection` and the `hello` liveness validation
inside `do_connect` is abstracted as a `ConnectOutcome`. -/

/-- How one `do_connect` attempt behaves at the transport level:
`handshakeFail` = `create_connection` raises; `livenessFail c` = the
connection `c` is created but the validation `send`/`recv` raises;
`livenessNone c` = `recv()` returns `None`; `validated c` = full
success. -/
inductive ConnectOutcome where
  | handshakeFail
  | livenessFail (c : Nat)
  | livenessNone (c : Nat)
  | validated (c : Nat)
deriving DecidableEq, Repr

/-- The two instance variables of the shell that make up connection
state: `self.__client` and `self.__client_connection_parameters`. -/
structure ShellState where
  client : Option Nat
  clientConnectionParameters : Option String
deriving DecidableEq, Repr

/-- What `do_connect` prints: the missing-parameters warning, the
connected message, the connection-failed error, or the
state-cannot-be-confirmed warning. -/
inductive ConnectReport where
  | missingParameters
  | connected
  | connectionFailed
  | unconfirmed
deriving DecidableEq, Repr

/-- The `do_connect` guard
`line is None or line.strip() == "" or "-t" not in line`
(`strip()` yields the empty string exactly when every character is
whitespace). -/
def lineInvalid : Option String → Bool
  | none => true
  | some l => l.toList.all (fun c => c.isWhitespace) || !containsSub ['-', 't'] l.toList

/-- `do_connect(line)` as a state transition.  Crucially,
`self.__client = create_connection(...)` executes before the liveness
validation, so a created connection replaces the old handle even when
the validation then fails; the parameters are saved only on full
validation. -/
def doConnect (outcome : ConnectOutcome) (line : Option String) (s : ShellState) :
    ShellState × ConnectReport :=
  if lineInvalid line then (s, ConnectReport.missingParameters)
  else
    match outcome with
    | ConnectOutcome.handshakeFail => (s, ConnectReport.connectionFailed)
    | ConnectOutcome.livenessFail c =>
      (⟨some c, s.clientConnectionParameters⟩, ConnectReport.connectionFailed)
    | ConnectOutcome.livenessNone c =>
      (⟨some c, s.clientConnectionParameters⟩, ConnectReport.unconfirmed)
    | ConnectOutcome.validated c => (⟨some c, line⟩, ConnectReport.connected)

/-- `do_disconnect`: a no-op without a client; otherwise `close()` is
called and only when it returns normally is `self.__client = None`
executed — an exception from `close()` skips the assignment (the error
is printed, not raised). -/
def doDisconnect (closeOk : Bool) (s : ShellState) : ShellState :=
  match s.client with
  | none => s
  | some _ => if closeOk then ⟨none, s.clientConnectionParameters⟩ else s

/-- Behaviour of the keep-alive `send`/`recv` on an existing client:
responsive, raising `WebSocketConnectionClosedException`, or raising any
other transport error. -/
inductive AliveOutcome where
  | responsive
  | closedException
  | otherError (e : String)
deriving DecidableEq, Repr

/-- `__check_connection_availability`: with no client, `do_connect` is
called on the saved parameters; with a client, the keep-alive probe is
sent — `WebSocketConnectionClosedException` triggers `do_connect` on the
saved parameters, any other error propagates to the caller. -/
def checkConnectionAvailability (co : ConnectOutcome) (ao : AliveOutcome)
    (s : ShellState) : Except String ShellState :=
  match s.client with
  | none => Except.ok (doConnect co s.clientConnectionParameters s).1
  | some _ =>
    match ao with
    | AliveOutcome.responsive => Except.ok s
    | AliveOutcome.closedException => Except.ok (doConnect co s.clientConnectionParameters s).1
    | AliveOutcome.otherError e => Except.error e

/-! ## Exchange-history export (`__store_exchanges_to_file`)

`json.dumps(self.__exchanges, sort_keys=True, indent=2)` followed by a
`json` parse of the written text is modelled at the granularity of the
JSON document tree: strings, numbers and Booleans are leaves (the
pretty-printer's escaping and number formatting are inverted exactly by
the parser and are the identity at this level).  `json.dumps` turns the
integer store indices into decimal string keys, and `sort_keys=True`
emits all object keys in lexicographic code-point order. -/

inductive Json where
  | jstr (s : String)
  | jnum (q : ℚ)
  | jbool (b : Bool)
  | jobj (fields : List (String × Json))

/-- A decimal digit as a character. -/
def digitChar (d : Nat) : Char :=
  match d with
  | 0 => '0' | 1 => '1' | 2 => '2' | 3 => '3' | 4 => '4'
  | 5 => '5' | 6 => '6' | 7 => '7' | 8 => '8' | _ => '9'

/-- Python `str(n)` for a store index: decimal digits, most significant
first. -/
def natKey (n : Nat) : List Char :=
  if n = 0 then ['0'] else ((Nat.digits 10 n).map digitChar).reverse

/-- The decimal key as a string. -/
def natKeyStr (n : Nat) : String := String.mk (natKey n)

/-- Parsing a decimal key back to the store index. -/
def keyToNat (cs : List Char) : Option Nat :=
  if cs.isEmpty || cs.any (fun c => !(decide (48 ≤ c.toNat) && decide (c.toNat ≤ 57))) then
    none
  else some (cs.foldl (fun a c => 10 * a + (c.toNat - 48)) 0)

/-- Code-point lexicographic order on keys (Python string comparison),
the order `sort_keys=True` emits object keys in. -/
def charsLe : List Char → List Char → Bool
  | [], _ => true
  | _ :: _, [] => false
  | a :: xs, b :: ys => if a = b then charsLe xs ys else decide (a.toNat < b.toNat)

/-- One recorded exchange as its JSON object, the six fields in the
sorted key order `sort_keys=True` produces. -/
def encodeExchange (ex : Exchange) : Json :=
  Json.jobj
    [("IS_ERROR", Json.jbool ex.isError),
     ("REQUEST", Json.jstr ex.request),
     ("REQUEST_LENGTH", Json.jnum (ex.requestLength : ℚ)),
     ("RESPONSE", Json.jstr ex.response),
     ("RESPONSE_LENGTH", Json.jnum (ex.responseLength : ℚ)),
     ("RESPONSE_TIME", Json.jnum ex.responseTime)]

/-- One store entry as its keyed JSON field. -/
def encPair (q : Nat × Exchange) : String × Json := (natKeyStr q.1, encodeExchange q.2)

/-- The exported document: one object whose keys are the decimal store
indices, sorted lexicographically. -/
def encodeExchanges (exchanges : List Exchange) : Json :=
  Json.jobj (List.mergeSort ((withIndexFrom 0 exchanges).map encPair)
    (fun a b => charsLe a.1.data b.1.data))

/-- Parsing a JSON number back as a non-negative integer field. -/
def jsonToNat (q : ℚ) : Option Nat :=
  if q.den = 1 ∧ 0 ≤ q.num then some q.num.toNat else none

/-- Parsing one exchange object back into its recorder fields. -/
def decodeExchange : Json → Option Exchange
  | Json.jobj [("IS_ERROR", Json.jbool e), ("REQUEST", Json.jstr req),
      ("REQUEST_LENGTH", Json.jnum ql), ("RESPONSE", Json.jstr resp),
      ("RESPONSE_LENGTH", Json.jnum rl), ("RESPONSE_TIME", Json.jnum t)] =>
    match jsonToNat ql, jsonToNat rl with
    | some qn, some rn => some ⟨req, resp, e, t, qn, rn⟩
    | _, _ => none
  | _ => none

/-- Parsing one keyed field back into an indexed exchange. -/
def decodePair (p : String × Json) : Option (Nat × Exchange) :=
  match keyToNat p.1.data, decodeExchange p.2 with
  | some i, some ex => some (i, ex)
  | _, _ => none

/-- Parsing all fields of the exported document back. -/
def decodeExchangePairs : List (String × Json) → Option (List (Nat × Exchange))
  | [] => some []
  | p :: rest =>
    match decodePair p, decodeExchangePairs rest with
    | some q, some l => some (q :: l)
    | _, _ => none

/-- Parsing the exported document back to the indexed exchanges. -/
def decodeExchanges : Json → Option (List (Nat × Exchange))
  | Json.jobj fields => decodeExchangePairs fields
  | _ => none

end WSProbing

namespace WSProbing

/-! ## Theorems about the payload combinator -/

/-- Helper: with a non-empty accumulator and all files non-empty, the
recursion multiplies the accumulator by the product of the remaining
files, iterating existing combinations outermost. -/
theorem buildFuzzingDicts_go (files : List (List String)) :
    ∀ (pos : Nat) (combs : List (List (String × String))),
      (∀ f ∈ files, f ≠ []) → combs ≠ [] →
      buildFuzzingDicts files combs pos =
        combs.flatMap (fun c => (specTuples files).map (fun t => (bindingOf pos t).reverse ++ c)) := by
  induction files with
  | nil =>
    intro pos combs _ _
    simp [buildFuzzingDicts, specTuples, bindingOf]
  | cons f rest ih =>
    intro pos combs hne hcne
    have hf : f ≠ [] := hne f (by simp)
    have hrest : ∀ g ∈ rest, g ≠ [] := fun g hg => hne g (by simp [hg])
    have hcombs2 :
        combs.flatMap (fun comb => f.map (fun p => (payloadKey pos, p) :: comb)) ≠ [] := by
      obtain ⟨c, cs, rfl⟩ := List.exists_cons_of_ne_nil hcne
      obtain ⟨x, xs, rfl⟩ := List.exists_cons_of_ne_nil hf
      simp [List.flatMap_cons]
    rw [buildFuzzingDicts]
    simp only [List.isEmpty_iff, hcne, if_false]
    rw [ih (pos + 1) _ hrest hcombs2]
    simp only [specTuples, List.flatMap_assoc, List.map_flatMap, List.flatMap_map,
      List.map_map]
    apply List.flatMap_congr ?_
    intro c _
    apply List.flatMap_congr ?_
    intro x _
    apply List.map_congr_left ?_
    intro t _
    simp [bindingOf, Function.comp, List.append_assoc]

/-- C1 (amended): for a non-empty list of payload files each having at least
one line, `__build_fuzzing_dicts` returns exactly the ordered Cartesian
product of the files' line lists, one binding per product tuple in the
left-to-right, existing-bindings-then-new-lines enumeration order; each
binding holds the keys `payload_1..payload_N` (stored newest key first,
which is irrelevant to the Python dict's mapping semantics). -/
theorem buildFuzzingDicts_cartesianProduct (files : List (List String))
    (hne : files ≠ []) (hall : ∀ f ∈ files, f ≠ []) :
    buildFuzzingDicts files [] 1 =
      (specTuples files).map (fun t => (bindingOf 1 t).reverse) := by
  obtain ⟨f, rest, rfl⟩ := List.exists_cons_of_ne_nil hne
  have hf : f ≠ [] := hall f (by simp)
  have hrest : ∀ g ∈ rest, g ≠ [] := fun g hg => hall g (by simp [hg])
  have hseed : f.map (fun p => [(payloadKey 1, p)]) ≠ [] := by
    obtain ⟨x, xs, rfl⟩ := List.exists_cons_of_ne_nil hf
    simp
  rw [buildFuzzingDicts]
  simp only [List.isEmpty_nil, if_true]
  rw [buildFuzzingDicts_go rest 2 _ hrest hseed]
  simp only [specTuples, List.map_flatMap, List.flatMap_map, List.map_map]
  apply List.flatMap_congr ?_
  intro x _
  apply List.map_congr_left ?_
  intro t _
  simp [bindingOf, Function.comp]

/-- C1 witness: the spec's own example, `[["x","y"],["1","2"]]`, satisfies the
hypotheses and yields the exact ordered product
`[{p1:x,p2:1},{p1:x,p2:2},{p1:y,p2:1},{p1:y,p2:2}]`. -/
theorem buildFuzzingDicts_cartesianProduct_example :
    ([["x","y"],["1","2"]] : List (List String)) ≠ [] ∧
    (∀ f ∈ ([["x","y"],["1","2"]] : List (List String)), f ≠ []) ∧
    buildFuzzingDicts [["x","y"],["1","2"]] [] 1 =
      (specTuples [["x","y"],["1","2"]]).map (fun t => (bindingOf 1 t).reverse) ∧
    buildFuzzingDicts [["x","y"],["1","2"]] [] 1 =
      [[("payload_2","1"),("payload_1","x")], [("payload_2","2"),("payload_1","x")],
       [("payload_2","1"),("payload_1","y")], [("payload_2","2"),("payload_1","y")]] :=
  ⟨by decide, by decide, buildFuzzingDicts_cartesianProduct _ (by decide) (by decide), by decide⟩

/-- C1 counterexample: with a non-empty file list whose first file has no
lines (`[[], ["1"]]`), the full Cartesian product is empty, yet the code
returns one binding (carrying only `payload_2`): the claim's universal
statement over every non-empty file list is false. -/
theorem buildFuzzingDicts_emptyFirstFile_not_product :
    buildFuzzingDicts [[], ["1"]] [] 1 = [[("payload_2", "1")]] ∧
    specTuples [[], ["1"]] = [] := by decide

/-- C8 (amended): the empty input file list yields the empty sequence of
bindings, not a single empty binding. -/
theorem buildFuzzingDicts_emptyInput_yieldsEmpty :
    buildFuzzingDicts [] [] 1 = [] := rfl

/-- C8 counterexample: the result on the empty file list is not the
single-empty-binding sequence claimed by the spec. -/
theorem buildFuzzingDicts_emptyInput_not_singleEmptyBinding :
    buildFuzzingDicts [] [] 1 ≠ [[]] := by decide

/-! ## Theorems about the bulk send driver and the timing aggregation -/

/-- Helper: enumerating from any start index has the list's length. -/
theorem withIndexFrom_length {α : Type} (l : List α) :
    ∀ i : Nat, (withIndexFrom i l).length = l.length := by
  induction l with
  | nil => intro i; rfl
  | cons x xs ih => intro i; simp [withIndexFrom, ih]

/-- Helper: the send loop, started at any index, records one entry per
message in order and counts exactly the failing attempts. -/
theorem sendMessagesAux_eq (oracle : Nat → Except String String) (times : Nat → ℚ)
    (msgs : List String) :
    ∀ start : Nat,
      sendMessagesAux oracle times start msgs =
        ((withIndexFrom start msgs).map (fun p => recordedExchange oracle times p.1 p.2),
         (withIndexFrom start msgs).countP (fun p => isErrorOutcome (oracle p.1))) := by
  induction msgs with
  | nil => intro start; rfl
  | cons m rest ih =>
    intro start
    simp only [sendMessagesAux, ih (start + 1), withIndexFrom, List.map_cons,
      List.countP_cons]
    cases h : oracle start with
    | ok r => simp [recordedExchange, isErrorOutcome, h, Nat.add_comm]
    | error e => simp [recordedExchange, isErrorOutcome, h, Nat.add_comm]

/-- C2: for every message list and every per-message transport behaviour,
`__send_messages` records exactly one `Exchange` per message, densely
indexed in send order; a failing message is recorded with `IS_ERROR=True`
and the error text as its response, is not retried, does not stop the
remaining messages, and the reported error count equals the number of
failing messages. -/
theorem sendMessages_recordsAll (oracle : Nat → Except String String) (times : Nat → ℚ)
    (messages : List String) :
    (sendMessages oracle times messages).1 =
      (withIndexFrom 0 messages).map (fun p => recordedExchange oracle times p.1 p.2) ∧
    (sendMessages oracle times messages).1.length = messages.length ∧
    (sendMessages oracle times messages).2 =
      (withIndexFrom 0 messages).countP (fun p => isErrorOutcome (oracle p.1)) := by
  have h := sendMessagesAux_eq oracle times messages 0
  refine ⟨?_, ?_, ?_⟩
  · rw [sendMessages, h]
  · rw [sendMessages, h]
    simp [withIndexFrom_length]
  · rw [sendMessages, h]

/-- C5 failing input (code bug): two exchanges whose response times are
`2.0` and `0.5` seconds.  `OrderedDict(exchanges_gathered)` does not sort,
so the emitted rows keep the first-seen key order `[2, 0]` instead of the
ascending order `[0, 2]` required by the spec and by the code's own
comment ("sorting the aggregation result"). -/
theorem analyzeTiming_unsorted_keys :
    analyzeTimingGroups
      [⟨"m0", "r0", false, (2 : ℚ), 2, 2⟩, ⟨"m1", "r1", false, (0 : ℚ), 2, 2⟩] =
      [((2 : Int), [0]), ((0 : Int), [1])] ∧
    (analyzeTimingGroups
      [⟨"m0", "r0", false, (2 : ℚ), 2, 2⟩, ⟨"m1", "r1", false, (0 : ℚ), 2, 2⟩]).map Prod.fst =
      [2, 0] := by
  constructor <;> decide

/-! ## Theorems about the limit probes -/

/-- Helper: when every probed size can be sent, the loop falls through and
`max_length` stays 0. -/
theorem lengthProbeLoop_allOk (sendOk : Nat → Bool) :
    ∀ l : List Nat, (∀ t ∈ l, sendOk t = true) → lengthProbeLoop sendOk l = 0 := by
  intro l
  induction l with
  | nil => intro _; rfl
  | cons a rest ih =>
    intro h
    simp only [lengthProbeLoop, h a (by simp), if_true]
    exact ih (fun t ht => h t (by simp [ht]))

/-- Helper: the loop stops at the first failing size and reports
`idx - 10`. -/
theorem lengthProbeLoop_firstFail (sendOk : Nat → Bool) (s : Nat) (l2 : List Nat)
    (hfail : sendOk s = false) :
    ∀ l1 : List Nat, (∀ t ∈ l1, sendOk t = true) →
      lengthProbeLoop sendOk (l1 ++ s :: l2) = s - 10 := by
  intro l1
  induction l1 with
  | nil => intro _; simp [lengthProbeLoop, hfail]
  | cons a rest ih =>
    intro h
    simp only [List.cons_append, lengthProbeLoop, h a (by simp), if_true]
    exact ih (fun t ht => h t (by simp [ht]))

/-- Helper: splitting the probed sizes at step `i`. -/
theorem lengthProbeSizes_split (i : Nat) (hi : i < 99999999) :
    lengthProbeSizes =
      List.range' 10 i 10 ++ (10 + 10 * i) :: List.range' (10 + 10 * i + 10) (99999998 - i) 10 := by
  have h3 : (99999999 - i) + i = 99999999 := by omega
  have h2 := List.range'_append 10 i (99999999 - i) 10
  rw [h3] at h2
  have h1 : 99999999 - i = (99999998 - i) + 1 := by omega
  rw [lengthProbeSizes, ← h2, h1, List.range'_succ]

/-- C3 (amended): if the transport first fails at probed size
`s = 10 + 10*i` (all smaller probed sizes succeed), the probe reports the
previous step's size `s - 10` whenever `s > 10`; a failure at the very
first size (`s = 10`, i.e. `i = 0`) leaves `max_length = 0` and is
reported as the same not-identified sentinel as the ceiling case instead
of a confirmed maximum&nbsp;0. -/
theorem probeLength_firstFailure (sendOk : Nat → Bool) (i : Nat)
    (hi : i < 99999999) (hfail : sendOk (10 + 10 * i) = false)
    (hok : ∀ j, j < i → sendOk (10 + 10 * j) = true) :
    probeRequestLengthLimit sendOk =
      if 0 < i then ProbeOutcome.identified (10 * i) else ProbeOutcome.undetermined := by
  have hpre : ∀ t ∈ List.range' 10 i 10, sendOk t = true := by
    intro t ht
    rw [List.mem_range'] at ht
    obtain ⟨j, hj, rfl⟩ := ht
    exact hok j hj
  rw [probeRequestLengthLimit, lengthProbeSizes_split i hi,
    lengthProbeLoop_firstFail sendOk _ _ hfail _ hpre]
  have he : 10 + 10 * i - 10 = 10 * i := by omega
  rw [he]
  by_cases h0 : 0 < i
  · rw [if_pos (by omega), if_pos h0]
  · rw [if_neg (by omega), if_neg h0]

/-- C3 witness: a transport that fails sending exactly at sizes of 53 or
more characters first fails at probed size 60 and yields confirmed
maximum 50. -/
theorem probeLength_firstFailure_at53 :
    (fun n => decide (n < 53)) (10 + 10 * 5) = false ∧
    (∀ j, j < 5 → (fun n => decide (n < 53)) (10 + 10 * j) = true) ∧
    probeRequestLengthLimit (fun n => decide (n < 53)) = ProbeOutcome.identified 50 := by
  refine ⟨by decide, by decide, ?_⟩
  have h := probeLength_firstFailure (fun n => decide (n < 53)) 5 (by decide) (by decide)
    (by decide)
  simpa using h

/-- C3 counterexample: a transport that fails at the very first probed
size (10) produces exactly the same outcome as a transport that never
fails up to the ceiling: the sentinel, not a distinct confirmed
maximum 0. -/
theorem probeLength_failAtStart_equals_ceilingOutcome :
    probeRequestLengthLimit (fun _ => false) = ProbeOutcome.undetermined ∧
    probeRequestLengthLimit (fun _ => true) = ProbeOutcome.undetermined ∧
    ProbeOutcome.undetermined ≠ ProbeOutcome.identified 0 := by
  refine ⟨?_, ?_, by decide⟩
  · rw [probeRequestLengthLimit, lengthProbeSizes_split 0 (by decide),
      lengthProbeLoop_firstFail (fun _ => false) _ _ rfl _ (by intro t ht; simp at ht)]
    decide
  · rw [probeRequestLengthLimit, lengthProbeLoop_allOk _ _ (fun t _ => rfl)]
    decide

/-- Helper: the growth loop stops at the first failing open, reporting
`idx - 1` and holding exactly the previously opened connections. -/
theorem connProbeGrow_firstFail (openOk : Nat → Bool) (k : Nat) (l2 : List Nat)
    (hfail : openOk k = false) :
    ∀ l1 held : List Nat, (∀ t ∈ l1, openOk t = true) →
      connProbeGrow openOk held (l1 ++ k :: l2) = (k - 1, held ++ l1) := by
  intro l1
  induction l1 with
  | nil => intro held _; simp [connProbeGrow, hfail]
  | cons a rest ih =>
    intro held h
    simp only [List.cons_append, connProbeGrow, h a (by simp), if_true, List.append_eq]
    rw [ih (held ++ [a]) (fun t ht => h t (by simp [ht]))]
    simp

/-- Helper: the release loop attempts a close on every held connection, in
order, and counts exactly the failing closes. -/
theorem connReleaseLoop_eq (closeOk : Nat → Bool) :
    ∀ l : List Nat, connReleaseLoop closeOk l = (l, l.countP (fun c => !closeOk c)) := by
  intro l
  induction l with
  | nil => rfl
  | cons c rest ih =>
    simp only [connReleaseLoop, ih, List.countP_cons]
    cases h : closeOk c <;> simp [h, Nat.add_comm]

/-- Helper: splitting the attempted connection numbers at attempt `k`. -/
theorem connProbeIndices_split (k : Nat) (h1 : 1 ≤ k) (h2 : k ≤ 999999999) :
    connProbeIndices =
      List.range' 1 (k - 1) 1 ++ k :: List.range' (k + 1) (999999999 - k) 1 := by
  have h3 : (999999999 - (k - 1)) + (k - 1) = 999999999 := by omega
  have h4 := List.range'_append 1 (k - 1) (999999999 - (k - 1)) 1
  rw [h3] at h4
  have h5 : 1 + 1 * (k - 1) = k := by omega
  rw [h5] at h4
  have h6 : 999999999 - (k - 1) = (999999999 - k) + 1 := by omega
  rw [connProbeIndices, ← h4, h6, List.range'_succ]

/-- C4 (amended): if opening the `k`-th connection is the first to fail
with a caught transport error, the probe holds exactly connections
`1..k-1`; it reports confirmed maximum `k - 1` when `k ≥ 2` (for `k = 1`
it reports the same not-identified sentinel as the ceiling case); a close
is then attempted on every one of the `k - 1` held connections in order,
an `IOError` on one close is counted and does not prevent closing the
rest nor raise, and the reported counts are the failing closes and
`(k-1) - failures`. -/
theorem probeConnection_firstFailure (openOk closeOk : Nat → Bool) (k : Nat)
    (h1 : 1 ≤ k) (h2 : k ≤ 999999999) (hfail : openOk k = false)
    (hok : ∀ j, 1 ≤ j → j < k → openOk j = true) :
    (probeRequestConnectionLimit openOk closeOk).outcome =
      (if 1 < k then ProbeOutcome.identified (k - 1) else ProbeOutcome.undetermined) ∧
    (probeRequestConnectionLimit openOk closeOk).closeAttempts = List.range' 1 (k - 1) 1 ∧
    (probeRequestConnectionLimit openOk closeOk).notReleased =
      (List.range' 1 (k - 1) 1).countP (fun c => !closeOk c) ∧
    (probeRequestConnectionLimit openOk closeOk).released =
      (k - 1) - (List.range' 1 (k - 1) 1).countP (fun c => !closeOk c) := by
  have hpre : ∀ t ∈ List.range' 1 (k - 1) 1, openOk t = true := by
    intro t ht
    rw [List.mem_range'] at ht
    obtain ⟨j, hj, rfl⟩ := ht
    exact hok _ (by omega) (by omega)
  have hg : connProbeGrow openOk [] connProbeIndices = (k - 1, List.range' 1 (k - 1) 1) := by
    rw [connProbeIndices_split k h1 h2,
      connProbeGrow_firstFail openOk k _ hfail _ [] hpre]
    simp
  have hr := connReleaseLoop_eq closeOk (List.range' 1 (k - 1) 1)
  refine ⟨?_, ?_, ?_, ?_⟩ <;>
    simp only [probeRequestConnectionLimit, hg, hr, List.length_range']
  · by_cases hk : 1 < k
    · rw [if_pos (by omega), if_pos hk]
    · rw [if_neg (by omega), if_neg hk]

/-- C4 witness: a transport failing on the 8th open call, with `close()`
failing (with `IOError`) on held connection 3: confirmed maximum 7, a
close attempted on all 7 held connections, 1 not released, 6 released. -/
theorem probeConnection_firstFailure_at8 :
    (fun n => decide (n < 8)) 8 = false ∧
    (∀ j, 1 ≤ j → j < 8 → (fun n => decide (n < 8)) j = true) ∧
    (probeRequestConnectionLimit (fun n => decide (n < 8)) (fun n => decide (n ≠ 3))).outcome =
      ProbeOutcome.identified 7 ∧
    (probeRequestConnectionLimit (fun n => decide (n < 8)) (fun n => decide (n ≠ 3))).closeAttempts =
      [1, 2, 3, 4, 5, 6, 7] ∧
    (probeRequestConnectionLimit (fun n => decide (n < 8)) (fun n => decide (n ≠ 3))).notReleased = 1 ∧
    (probeRequestConnectionLimit (fun n => decide (n < 8)) (fun n => decide (n ≠ 3))).released = 6 := by
  have h := probeConnection_firstFailure (fun n => decide (n < 8)) (fun n => decide (n ≠ 3)) 8
    (by decide) (by decide) (by decide) (by decide)
  refine ⟨by decide, by decide, ?_, ?_, ?_, ?_⟩
  · rw [h.1]; decide
  · rw [h.2.1]; decide
  · rw [h.2.2.1]; decide
  · rw [h.2.2.2]; decide

/-- C4 counterexample: when already the 1st open call fails (`k = 1`), the
probe does not report confirmed maximum `k - 1 = 0`; it reports the
not-identified sentinel. -/
theorem probeConnection_failAtFirst_sentinel :
    (probeRequestConnectionLimit (fun _ => false) (fun _ => true)).outcome =
      ProbeOutcome.undetermined ∧
    (probeRequestConnectionLimit (fun _ => false) (fun _ => true)).outcome ≠
      ProbeOutcome.identified 0 := by
  have hg : connProbeGrow (fun _ => false) [] connProbeIndices = (0, []) := by
    rw [connProbeIndices_split 1 (by decide) (by decide),
      connProbeGrow_firstFail (fun _ => false) 1 _ rfl _ [] (by intro t ht; simp at ht)]
    simp
  constructor <;> simp [probeRequestConnectionLimit, hg]

/-! ## Theorems about connect and disconnect -/

/-- C6 (amended): on every failing `connect` invocation the saved
connection parameters are left untouched and an error (or the
unconfirmed warning) is reported; the previous live handle survives a
handshake failure, but when the handshake succeeds and only the liveness
validation fails (or yields no response), the new connection has already
replaced the previous handle. -/
theorem doConnect_failure_preservesParameters (o : ConnectOutcome) (line : Option String)
    (s : ShellState) (hline : lineInvalid line = false) :
    (o = ConnectOutcome.handshakeFail →
      doConnect o line s = (s, ConnectReport.connectionFailed)) ∧
    (∀ c, o = ConnectOutcome.livenessFail c →
      doConnect o line s =
        (⟨some c, s.clientConnectionParameters⟩, ConnectReport.connectionFailed)) ∧
    (∀ c, o = ConnectOutcome.livenessNone c →
      doConnect o line s =
        (⟨some c, s.clientConnectionParameters⟩, ConnectReport.unconfirmed)) := by
  refine ⟨?_, ?_, ?_⟩
  · rintro rfl; simp [doConnect, hline]
  · rintro c rfl; simp [doConnect, hline]
  · rintro c rfl; simp [doConnect, hline]

/-- C6 witness: a handshake failure on a state holding a live connection
and saved parameters leaves both untouched and reports the failure. -/
theorem doConnect_failure_preservesParameters_witness :
    lineInvalid (some "-t ws://new") = false ∧
    doConnect ConnectOutcome.handshakeFail (some "-t ws://new")
        ⟨some 1, some "-t ws://old"⟩ =
      (⟨some 1, some "-t ws://old"⟩, ConnectReport.connectionFailed) :=
  ⟨by decide,
   (doConnect_failure_preservesParameters ConnectOutcome.handshakeFail
     (some "-t ws://new") ⟨some 1, some "-t ws://old"⟩ (by decide)).1 rfl⟩

/-- C6 counterexample: when the handshake succeeds but the liveness
validation raises, the previous live handle `some 1` has already been
replaced by the new connection `some 2` — the previous connection state
is not left untouched. -/
theorem doConnect_livenessFailure_replacesClient :
    doConnect (ConnectOutcome.livenessFail 2) (some "-t ws://new")
        ⟨some 1, some "-t ws://old"⟩ =
      (⟨some 2, some "-t ws://old"⟩, ConnectReport.connectionFailed) ∧
    (doConnect (ConnectOutcome.livenessFail 2) (some "-t ws://new")
        ⟨some 1, some "-t ws://old"⟩).1.client ≠ some 1 := by
  constructor <;> decide

/-- C10 (amended): `disconnect` never modifies the saved connection
parameters; when `close()` returns normally the live handle is cleared,
and a subsequent availability check transparently reconnects using the
saved parameters instead of failing; when `close()` raises, the handle
is left in place (the error is reported, not raised). -/
theorem doDisconnect_clears_and_reconnects (s : ShellState) (p : String) (c2 : Nat)
    (ao : AliveOutcome) (hp : s.clientConnectionParameters = some p)
    (hline : lineInvalid (some p) = false) :
    (∀ ok : Bool, (doDisconnect ok s).clientConnectionParameters =
      s.clientConnectionParameters) ∧
    (doDisconnect true s).client = none ∧
    checkConnectionAvailability (ConnectOutcome.validated c2) ao (doDisconnect true s) =
      Except.ok ⟨some c2, some p⟩ ∧
    (doDisconnect false s).client = s.client := by
  obtain ⟨cl, pars⟩ := s
  simp only at hp
  subst hp
  cases cl <;>
    simp [doDisconnect, checkConnectionAvailability, doConnect, hline]

/-- C10 witness: disconnecting a live connection with saved parameters
keeps the parameters, clears the handle, and the next availability check
reconnects with those parameters. -/
theorem doDisconnect_clears_and_reconnects_witness :
    (⟨some 1, some "-t ws://e"⟩ : ShellState).clientConnectionParameters =
      some "-t ws://e" ∧
    lineInvalid (some "-t ws://e") = false ∧
    (doDisconnect false ⟨some 1, some "-t ws://e"⟩).clientConnectionParameters =
      some "-t ws://e" ∧
    (doDisconnect true ⟨some 1, some "-t ws://e"⟩).client = none ∧
    checkConnectionAvailability (ConnectOutcome.validated 7) AliveOutcome.responsive
        (doDisconnect true ⟨some 1, some "-t ws://e"⟩) =
      Except.ok ⟨some 7, some "-t ws://e"⟩ := by
  have h := doDisconnect_clears_and_reconnects ⟨some 1, some "-t ws://e"⟩ "-t ws://e" 7
    AliveOutcome.responsive rfl (by decide)
  exact ⟨rfl, by decide, h.1 false, h.2.1, h.2.2.1⟩

/-- C10 counterexample: when `close()` raises, `self.__client = None` is
skipped, so an explicit disconnect does not clear the live handle —
refuting the claim that disconnect always clears it. -/
theorem doDisconnect_closeFailure_keepsClient :
    doDisconnect false ⟨some 1, some "-t ws://e"⟩ = ⟨some 1, some "-t ws://e"⟩ ∧
    (doDisconnect false ⟨some 1, some "-t ws://e"⟩).client ≠ none := by
  constructor <;> decide

/-! ## Theorems about the channel capability probe -/

/-- Helper: a pattern that occurs nowhere in `s` is never replaced. -/
theorem replaceAllFuel_noOccur (pat repl : List Char) :
    ∀ s : List Char, containsSub pat s = false →
      ∀ fuel : Nat, s.length ≤ fuel → replaceAllFuel pat repl fuel s = s := by
  intro s
  induction s with
  | nil => intro _ fuel _; cases fuel <;> rfl
  | cons c rest ih =>
    intro h fuel hf
    rw [containsSub, Bool.or_eq_false_iff] at h
    obtain ⟨h1, h2⟩ := h
    cases fuel with
    | zero => exact absurd hf (by simp)
    | succ f =>
      rw [replaceAllFuel, if_neg (by simp [h1])]
      rw [ih h2 f (by simpa using hf)]

/-- Helper: `replace` leaves a string without occurrences unchanged. -/
theorem replaceAll_noOccur (pat repl s : List Char) (h : containsSub pat s = false) :
    replaceAll pat repl s = s :=
  replaceAllFuel_noOccur pat repl s h s.length le_rfl

/-- Helper: `replace` on a string that is the pattern followed by an
occurrence-free tail rewrites exactly the leading occurrence. -/
theorem replaceAll_prefix_noOccur (pat repl s : List Char) (hpat : pat ≠ [])
    (h : containsSub pat s = false) :
    replaceAll pat repl (pat ++ s) = repl ++ s := by
  obtain ⟨p0, pt, rfl⟩ := List.exists_cons_of_ne_nil hpat
  have hpre : (p0 :: pt).isPrefixOf (p0 :: (pt ++ s)) = true := by
    rw [← List.cons_append]
    exact List.isPrefixOf_iff_prefix.2 (List.prefix_append _ _)
  rw [replaceAll, List.cons_append, List.length_cons, replaceAllFuel, if_pos hpre]
  have hd : (p0 :: (pt ++ s)).drop (p0 :: pt).length = s := by
    simp [List.drop_left]
  rw [hd]
  have hfuel : s.length ≤ (pt ++ s).length := by
    simp [List.length_append]
  rw [replaceAllFuel_noOccur (p0 :: pt) repl s h _ hfuel]

/-- C7 (amended): the channel prober derives the complementary-scheme
endpoint from the lowercased saved endpoint: it replaces the scheme
token (recognized case-insensitively) with the complementary one, and
every other endpoint component is preserved only up to lowercasing (the
whole URI is lowercased first), provided no further scheme token occurs
inside the rest of the URI. -/
theorem deriveComplementary_lowercases :
    (∀ e r : List Char, pyLower e = wsToken ++ r →
      containsSub wssToken (pyLower e) = false → containsSub wsToken r = false →
      deriveComplementaryEndpoint e = wssToken ++ r) ∧
    (∀ e r : List Char, pyLower e = wssToken ++ r →
      containsSub wssToken r = false → containsSub wsToken r = false →
      deriveComplementaryEndpoint e = wsToken ++ r) := by
  constructor
  · intro e r he h2 h3
    have h2b : containsSub wssToken (wsToken ++ r) = false := he ▸ h2
    have hnotpre : wssToken.isPrefixOf (wsToken ++ r) = false := by
      simp [wsToken, wssToken, List.isPrefixOf, List.cons_append]
    rw [deriveComplementaryEndpoint, he, hnotpre]
    rw [replaceAll_noOccur wssToken [] (wsToken ++ r) h2b]
    rw [replaceAll_prefix_noOccur wsToken [] r (by simp [wsToken]) h3]
    simp
  · intro e r he h2 h3
    have hpre : wssToken.isPrefixOf (wssToken ++ r) = true :=
      List.isPrefixOf_iff_prefix.2 (List.prefix_append _ _)
    rw [deriveComplementaryEndpoint, he, hpre]
    rw [replaceAll_prefix_noOccur wssToken [] r (by simp [wssToken]) h2]
    rw [List.nil_append, replaceAll_noOccur wsToken [] r h3]
    simp

/-- C7 witness: a saved insecure endpoint with mixed-case host and path
derives the secure endpoint on the fully lowercased remainder. -/
theorem deriveComplementary_lowercases_witness :
    pyLower "ws://Example.com/Chat".toList = wsToken ++ "example.com/chat".toList ∧
    containsSub wssToken (pyLower "ws://Example.com/Chat".toList) = false ∧
    containsSub wsToken "example.com/chat".toList = false ∧
    deriveComplementaryEndpoint "ws://Example.com/Chat".toList =
      wssToken ++ "example.com/chat".toList := by
  refine ⟨by decide, by decide, by decide, ?_⟩
  exact (deriveComplementary_lowercases).1 _ _ (by decide) (by decide) (by decide)

/-- C7 counterexample: the endpoint `ws://HOST/Path` derives
`wss://host/path`, not `wss://HOST/Path`: host and path case is NOT
preserved, refuting the claim that only the scheme token changes. -/
theorem deriveComplementary_changesPathCase :
    deriveComplementaryEndpoint "ws://HOST/Path".toList = "wss://host/path".toList ∧
    deriveComplementaryEndpoint "ws://HOST/Path".toList ≠ "wss://HOST/Path".toList := by
  constructor <;> decide

/-! ## Theorems about the exchange-history export -/

/-- Helper: digit characters decode back to their digit value. -/
theorem digitChar_toNat (d : Nat) (h : d < 10) : (digitChar d).toNat = 48 + d := by
  interval_cases d <;> rfl

/-- Helper: folding the decimal characters of a digit list (most
significant first) computes the denoted number. -/
theorem foldl_digitChars (ds : List Nat) (h : ∀ d ∈ ds, d < 10) :
    ∀ a : Nat,
      List.foldl (fun a c => 10 * a + (c.toNat - 48)) a ((ds.map digitChar).reverse) =
        a * 10 ^ ds.length + Nat.ofDigits 10 ds := by
  induction ds with
  | nil => intro a; simp [Nat.ofDigits_nil]
  | cons d ds ih =>
    intro a
    have hd : d < 10 := h d (by simp)
    have hds : ∀ x ∈ ds, x < 10 := fun x hx => h x (by simp [hx])
    simp only [List.map_cons, List.reverse_cons, List.foldl_append, ih hds a,
      List.foldl_cons, List.foldl_nil]
    rw [digitChar_toNat d hd, Nat.ofDigits_cons]
    have hsub : 48 + d - 48 = d := by omega
    rw [hsub, List.length_cons]
    ring

/-- Helper: parsing the decimal key of `n` returns `n`. -/
theorem keyToNat_natKey (n : Nat) : keyToNat (natKey n) = some n := by
  by_cases h0 : n = 0
  · subst h0; decide
  · have hds : ∀ d ∈ Nat.digits 10 n, d < 10 :=
      fun d hd => Nat.digits_lt_base (by norm_num) hd
    have hne : Nat.digits 10 n ≠ [] := Nat.digits_ne_nil_iff_ne_zero.2 h0
    rw [natKey, if_neg h0, keyToNat, if_neg ?hcond]
    case hcond =>
      intro hcond
      rw [Bool.or_eq_true] at hcond
      rcases hcond with hc | hc
      · rw [List.isEmpty_iff] at hc
        simp only [List.reverse_eq_nil_iff, List.map_eq_nil_iff] at hc
        exact hne hc
      · rw [List.any_eq_true] at hc
        obtain ⟨c, hc1, hc2⟩ := hc
        rw [List.mem_reverse, List.mem_map] at hc1
        obtain ⟨d, hd1, rfl⟩ := hc1
        rw [digitChar_toNat d (hds d hd1)] at hc2
        have : 48 ≤ 48 + d ∧ 48 + d ≤ 57 := ⟨by omega, by have := hds d hd1; omega⟩
        simp [this.1, this.2] at hc2
    rw [foldl_digitChars _ hds 0]
    simp [Nat.ofDigits_digits]

/-- Helper: one exchange object parses back to the exact recorder entry. -/
theorem decodeExchange_encodeExchange (ex : Exchange) :
    decodeExchange (encodeExchange ex) = some ex := by
  obtain ⟨req, resp, e, t, ql, rl⟩ := ex
  simp [encodeExchange, decodeExchange, jsonToNat, Rat.den_natCast, Rat.num_natCast,
    Int.toNat_natCast]

/-- Helper: one keyed field parses back to the exact indexed entry. -/
theorem decodePair_encPair (q : Nat × Exchange) : decodePair (encPair q) = some q := by
  obtain ⟨i, ex⟩ := q
  simp [decodePair, encPair, natKeyStr, keyToNat_natKey, decodeExchange_encodeExchange]

/-- Helper: a field list made of encoded entries parses back to a list of
indexed entries that re-encodes to the same field list. -/
theorem decodeExchangePairs_encoded :
    ∀ l : List (String × Json), (∀ p ∈ l, ∃ q : Nat × Exchange, p = encPair q) →
      ∃ L, decodeExchangePairs l = some L ∧ l = L.map encPair := by
  intro l
  induction l with
  | nil => intro _; exact ⟨[], rfl, rfl⟩
  | cons p rest ih =>
    intro h
    obtain ⟨q, rfl⟩ := h p (by simp)
    obtain ⟨L, hL, hmap⟩ := ih (fun p2 hp2 => h p2 (by simp [hp2]))
    refine ⟨q :: L, ?_, ?_⟩
    · simp [decodeExchangePairs, decodePair_encPair, hL]
    · rw [List.map_cons, ← hmap]

/-- C9: the exported exchange-history JSON document, parsed back,
reproduces exactly the recorded data: parsing always succeeds and yields,
up to the key permutation introduced by `sort_keys`, precisely the
recorder's indexed exchanges — for every index its request text, response
text, error flag, response time, and request/response lengths. -/
theorem exchangesExport_roundTrip (exchanges : List Exchange) :
    ∃ L, decodeExchanges (encodeExchanges exchanges) = some L ∧
      L.Perm (withIndexFrom 0 exchanges) := by
  have hperm := List.mergeSort_perm ((withIndexFrom 0 exchanges).map encPair)
    (fun a b => charsLe a.1.data b.1.data)
  have hcov : ∀ p ∈ List.mergeSort ((withIndexFrom 0 exchanges).map encPair)
      (fun a b => charsLe a.1.data b.1.data), ∃ q : Nat × Exchange, p = encPair q := by
    intro p hp
    have hp2 : p ∈ (withIndexFrom 0 exchanges).map encPair := hperm.mem_iff.mp hp
    obtain ⟨q, _, rfl⟩ := List.mem_map.mp hp2
    exact ⟨q, rfl⟩
  obtain ⟨L, hdec, hmap⟩ := decodeExchangePairs_encoded _ hcov
  refine ⟨L, ?_, ?_⟩
  · rw [encodeExchanges, decodeExchanges]
    exact hdec
  · have h1 : (L.map encPair).Perm ((withIndexFrom 0 exchanges).map encPair) := by
      rw [← hmap]
      exact hperm
    have h2 := h1.map decodePair
    have e1 : ∀ M : List (Nat × Exchange),
        (M.map encPair).map decodePair =
          M.map (fun q => (some q : Option (Nat × Exchange))) := by
      intro M
      rw [List.map_map]
      exact List.map_congr_left (fun q _ => decodePair_encPair q)
    rw [e1 L, e1 (withIndexFrom 0 exchanges)] at h2
    rw [List.perm_iff_count]
    intro a
    have c1 := List.count_map_of_injective L
      (fun q => (some q : Option (Nat × Exchange))) (Option.some_injective _) a
    have c2 := List.count_map_of_injective (withIndexFrom 0 exchanges)
      (fun q => (some q : Option (Nat × Exchange))) (Option.some_injective _) a
    rw [← c1, ← c2]
    exact h2.count_eq (some a)
